import Mathlib

/-!
Verification of the Home Upkeep backend recurrence engine
(`backend/app/main.py`) and its task-lifecycle handler, against the
natural-language specification of the repository.

The embedding models:
* calendar dates and Python `date + timedelta(days/weeks)` arithmetic;
* `_calculate_next_due_date` and `_find_first_non_prohibited_month`;
* the in-memory task store (`storage/memory.py`) and the `PATCH /tasks/id`
  handler `update_task` together with the WebSocket broadcast events it emits.
-/

namespace Upkeep

/-- A calendar date, mirroring Python `datetime.date` (year, month, day). -/
structure Date where
  year : Nat
  month : Nat
  day : Nat
deriving DecidableEq, Repr

/-- A timestamp; only its calendar date is ever inspected by the code under
verification (`.date()`), the time of day `tod` is carried opaquely. -/
structure DateTime where
  date : Date
  tod : Nat
deriving DecidableEq, Repr

/-- Python `calendar.isleap`. -/
def isleap (y : Nat) : Bool :=
  y % 4 == 0 && (y % 100 != 0 || y % 400 == 0)

/-- Python `calendar.monthrange(y, m)[1]`: number of days of month `m`
of year `y` (months are 1-based; only called with `1 ≤ m ≤ 12`). -/
def daysInMonth (y m : Nat) : Nat :=
  if m = 2 then (if isleap y then 29 else 28)
  else if m = 4 ∨ m = 6 ∨ m = 9 ∨ m = 11 then 30
  else 31

/-- The successor day of a date, with month and year rollover
(the one-day step of Python `date + timedelta(days=1)`). -/
def nextDay (d : Date) : Date :=
  if d.day < daysInMonth d.year d.month then ⟨d.year, d.month, d.day + 1⟩
  else if d.month < 12 then ⟨d.year, d.month + 1, 1⟩
  else ⟨d.year + 1, 1, 1⟩

/-- Python `date + timedelta(days=n)` for `n ≥ 0`, as iterated day succession. -/
def addDays (d : Date) : Nat → Date
  | 0 => d
  | n + 1 => nextDay (addDays d n)

/-- A parsed reschedule period string such as `"5d"`, `"1w"`, `"1m"`:
`amount` is `int(s[:-1])` and `unit` is `s[-1]`; the API validates the
pattern `[0-9]+[dwm]`, so `amount` is a natural number. -/
structure Period where
  amount : Nat
  unit : Char
deriving DecidableEq, Repr

/-- The month branch of `_calculate_next_due_date`: add `amount` to the month
index, carry into the year by integer division, clamp the day to the length
of the target month. -/
def monthsAdd (base : Date) (amount : Nat) : Date :=
  let m0 := base.month + amount
  let year := base.year + (m0 - 1) / 12
  let month := (m0 - 1) % 12 + 1
  ⟨year, month, min base.day (daysInMonth year month)⟩

/-- One iteration of the scan loop of `_find_first_non_prohibited_month`:
`current_month += 1; if current_month > 12: current_month = 1; current_year += 1`. -/
def monthStep (y m : Nat) : Nat × Nat :=
  if m + 1 > 12 then (y + 1, 1) else (y, m + 1)

/-- The `for _ in range(max_months)` loop of `_find_first_non_prohibited_month`:
starting from year `y`, month `m`, advance up to `fuel` months and return the
first (year, month) whose month is not prohibited, else `none`. -/
def scanMonths (p : List Nat) : Nat → Nat → Nat → Option (Nat × Nat)
  | 0, _, _ => none
  | fuel + 1, y, m =>
      let s := monthStep y m
      if s.2 ∈ p then scanMonths p fuel s.1 s.2 else some s

/-- `_find_first_non_prohibited_month(start_date, prohibited_months)`. -/
def find_first_non_prohibited_month (start_date : Date)
    (prohibited_months : List Nat) : Date :=
  if prohibited_months = [] then start_date
  else if start_date.month ∉ prohibited_months then
    ⟨start_date.year, start_date.month, 1⟩
  else
    match scanMonths prohibited_months 12 start_date.year start_date.month with
    | some (y, m) => ⟨y, m, 1⟩
    | none => start_date

/-- The raw (pre-prohibition) candidate of `_calculate_next_due_date`:
day, week or month addition according to the period unit; any other unit
leaves `next_due = base_date`. -/
def rawCandidate (base_date : Date) (p : Period) : Date :=
  if p.unit = 'd' then addDays base_date p.amount
  else if p.unit = 'w' then addDays base_date (7 * p.amount)
  else if p.unit = 'm' then monthsAdd base_date p.amount
  else base_date

/-- `_calculate_next_due_date(base_date, reschedule_period, prohibited_months)`:
the raw candidate, rolled forward by `_find_first_non_prohibited_month` when
the prohibited-month list is non-empty and contains the candidate's month. -/
def calculate_next_due_date (base_date : Date) (p : Period)
    (prohibited_months : List Nat) : Date :=
  if prohibited_months ≠ [] ∧ (rawCandidate base_date p).month ∈ prohibited_months then
    find_first_non_prohibited_month (rawCandidate base_date p) prohibited_months
  else rawCandidate base_date p

/-- The month reached from month `m` after `k` forward steps with
December-to-January wraparound. -/
def monthAfter (m k : Nat) : Nat :=
  (m - 1 + k) % 12 + 1

/-- Strict chronological order on dates (lexicographic on year, month, day). -/
def dateLt (a b : Date) : Prop :=
  a.year < b.year ∨
    (a.year = b.year ∧
      (a.month < b.month ∨ (a.month = b.month ∧ a.day < b.day)))

instance (a b : Date) : Decidable (dateLt a b) := by
  unfold dateLt
  infer_instance

/-- `storage.models.StoredTask`. -/
structure StoredTask where
  id : Nat
  list_id : Nat
  title : String
  description : Option String
  completed : Bool
  due_date : Option Date
  reschedule_period : Option Period
  reschedule_base : Option String
  completed_at : Option DateTime
  created_at : DateTime
  updated_at : DateTime
  prohibited_months : List Nat
  constraints : List String
deriving DecidableEq, Repr

/-- `schemas.TaskUpdate`: the PATCH payload, all fields optional. -/
structure TaskUpdate where
  list_id : Option Nat
  title : Option String
  description : Option String
  completed : Option Bool
  due_date : Option Date
  reschedule_period : Option Period
  reschedule_base : Option String
  completed_at : Option DateTime
  updated_at : Option DateTime
  prohibited_months : Option (List Nat)
  constraints : Option (List String)
deriving DecidableEq, Repr

/-- `schemas.TaskCreate`. -/
structure TaskCreate where
  list_id : Nat
  title : String
  description : Option String
  completed : Bool
  due_date : Option Date
  reschedule_period : Option Period
  reschedule_base : Option String
  prohibited_months : List Nat
  constraints : List String
deriving DecidableEq, Repr

/-- The task table of `storage.memory.MemoryStore`: the tasks together with
the next fresh task id. -/
structure Store where
  tasks : List StoredTask
  next_task_id : Nat
deriving DecidableEq, Repr

/-- `MemoryStore.create_task`: allocate a fresh id and insert the new task,
with `completed_at = None` and `created_at = updated_at = now`. -/
def store_create_task (s : Store) (payload : TaskCreate) (now : DateTime) :
    Store × StoredTask :=
  let task : StoredTask :=
    { id := s.next_task_id
      list_id := payload.list_id
      title := payload.title
      description := payload.description
      completed := payload.completed
      due_date := payload.due_date
      reschedule_period := payload.reschedule_period
      reschedule_base := payload.reschedule_base
      completed_at := none
      created_at := now
      updated_at := now
      prohibited_months := payload.prohibited_months
      constraints := payload.constraints }
  (⟨s.tasks ++ [task], s.next_task_id + 1⟩, task)

/-- The field-by-field mutation of `MemoryStore.update_task`: each supplied
field overwrites the stored one; setting `completed` also sets
`completed_at` to `now` (or clears it), a supplied `completed_at` then
overrides it; `updated_at` is refreshed last. -/
def applyTaskUpdate (t : StoredTask) (u : TaskUpdate) (now : DateTime) :
    StoredTask :=
  let t := match u.list_id with | some v => { t with list_id := v } | none => t
  let t := match u.title with | some v => { t with title := v } | none => t
  let t := match u.description with
    | some v => { t with description := some v } | none => t
  let t := match u.completed with
    | some v => { t with completed := v,
                         completed_at := if v then some now else none }
    | none => t
  let t := match u.due_date with
    | some v => { t with due_date := some v } | none => t
  let t := match u.reschedule_period with
    | some v => { t with reschedule_period := some v } | none => t
  let t := match u.reschedule_base with
    | some v => { t with reschedule_base := some v } | none => t
  let t := match u.completed_at with
    | some v => { t with completed_at := some v } | none => t
  let t := match u.prohibited_months with
    | some v => { t with prohibited_months := v } | none => t
  let t := match u.constraints with
    | some v => { t with constraints := v } | none => t
  { t with updated_at := now }

/-- `MemoryStore.update_task`: look the task up by id, mutate its fields,
return the updated task (or `none` when absent). -/
def store_update_task (s : Store) (task_id : Nat) (u : TaskUpdate)
    (now : DateTime) : Store × Option StoredTask :=
  match s.tasks.find? (fun t => t.id == task_id) with
  | none => (s, none)
  | some t =>
      let t2 := applyTaskUpdate t u now
      (⟨s.tasks.map (fun x => if x.id == task_id then t2 else x),
        s.next_task_id⟩, some t2)

/-- A WebSocket broadcast, as emitted by `manager.broadcast` in the
`create_task` and `update_task` endpoints. -/
inductive Event where
  | task_created (list_id : Nat) (task : StoredTask)
  | task_updated (list_id : Nat) (task : StoredTask)
      (created_task : Option StoredTask)
deriving DecidableEq, Repr

/-- Whether an event is a `task_created` broadcast. -/
def isCreatedEvent : Event → Bool
  | .task_created _ _ => true
  | .task_updated _ _ _ => false

/-- The `POST /tasks` endpoint `create_task`: create the task in the store
and broadcast a `task_created` event. -/
def create_task (s : Store) (payload : TaskCreate) (now : DateTime) :
    Store × StoredTask × List Event :=
  let r := store_create_task s payload now
  (r.1, r.2, [Event.task_created payload.list_id r.2])

/-- The anchor (`base_date`) selection of the `update_task` endpoint
(main.py lines 316-329): the task's due date when `reschedule_base` is
`"due"`, else the client-supplied `updated_at` date, else the task's
`completed_at` date, else today's server-local date. -/
def anchor_base_date (task : StoredTask) (payload : TaskUpdate)
    (localToday : Date) : Date :=
  let base : Option Date :=
    if task.reschedule_base = some "due" then task.due_date
    else
      match payload.updated_at with
      | some t => some t.date
      | none =>
          match task.completed_at with
          | some c => some c.date
          | none => none
  base.getD localToday

/-- The result of the `PATCH /tasks/id` endpoint: the final store, the
updated task, the created follow-up task (if any), and the broadcast
events in emission order. -/
structure UpdateResult where
  store : Store
  task : StoredTask
  created_task : Option StoredTask
  events : List Event
deriving DecidableEq, Repr

/-- The `PATCH /tasks/id` endpoint `update_task`: update the stored task;
if the updated task is completed and has a reschedule period, compute the
next due date and create a follow-up task via `create_task` (which
broadcasts `task_created`), then broadcast `task_updated`. `now` is the
UTC instant used for store timestamps, `localToday` the server-local
date used as last-resort anchor. Returns `none` on a missing task (404). -/
def update_task (s : Store) (task_id : Nat) (payload : TaskUpdate)
    (now : DateTime) (localToday : Date) : Option UpdateResult :=
  match store_update_task s task_id payload now with
  | (_, none) => none
  | (s1, some task) =>
      match task.completed, task.reschedule_period with
      | true, some period =>
          let base_date := anchor_base_date task payload localToday
          let next_due :=
            calculate_next_due_date base_date period task.prohibited_months
          let reschedule_payload : TaskCreate :=
            { list_id := task.list_id
              title := task.title
              description := task.description
              completed := false
              due_date := some next_due
              reschedule_period := some period
              reschedule_base := task.reschedule_base
              prohibited_months := task.prohibited_months
              constraints := task.constraints }
          let r := create_task s1 reschedule_payload now
          some ⟨r.1, task, some r.2.1,
            r.2.2 ++ [Event.task_updated task.list_id task (some r.2.1)]⟩
      | _, _ =>
          some ⟨s1, task, none, [Event.task_updated task.list_id task none]⟩

/-- A recurring task that is already completed: `completed = true`,
`reschedule_period = "1d"`. Used to probe the behaviour of a repeated
`completed: true` PATCH. -/
def recompleteTask : StoredTask :=
  { id := 1, list_id := 1, title := "Clean gutters", description := none,
    completed := true, due_date := some ⟨2024, 1, 1⟩,
    reschedule_period := some ⟨1, 'd'⟩, reschedule_base := some "completed",
    completed_at := some ⟨⟨2024, 1, 2⟩, 0⟩, created_at := ⟨⟨2024, 1, 1⟩, 0⟩,
    updated_at := ⟨⟨2024, 1, 2⟩, 0⟩, prohibited_months := [], constraints := [] }

/-- A store holding only the already-completed recurring task. -/
def recompleteStore : Store := ⟨[recompleteTask], 2⟩

/-- A PATCH payload that sets `completed = true` again and nothing else. -/
def recompletePayload : TaskUpdate :=
  { list_id := none, title := none, description := none,
    completed := some true, due_date := none, reschedule_period := none,
    reschedule_base := none, completed_at := none, updated_at := none,
    prohibited_months := none, constraints := none }

/-- The server UTC instant of the repeated-completion request. -/
def recompleteNow : DateTime := ⟨⟨2024, 1, 3⟩, 5⟩

/-- The server-local date of the repeated-completion request. -/
def recompleteToday : Date := ⟨2024, 1, 3⟩

/-- A not-yet-completed recurring task, for observing the broadcast order of
a genuine first-time completion. -/
def freshCompleteTask : StoredTask :=
  { recompleteTask with completed := false, completed_at := none }

/-- A store holding only the not-yet-completed recurring task. -/
def freshCompleteStore : Store := ⟨[freshCompleteTask], 2⟩

/-- A task whose `reschedule_base` is `"due"`, with a due date on file. -/
def dueBaseTask : StoredTask :=
  { recompleteTask with reschedule_base := some "due",
                        due_date := some ⟨2024, 4, 1⟩ }

/-- A PATCH payload completing a task and supplying a client `updated_at`
completion timestamp. -/
def clientStampPayload : TaskUpdate :=
  { recompletePayload with updated_at := some ⟨⟨2024, 3, 5⟩, 0⟩ }

/-- A placeholder task used only as the default of `Option.getD` when
destructuring concrete handler results in witnesses. -/
def dummyTask : StoredTask :=
  { id := 0, list_id := 0, title := "", description := none,
    completed := false, due_date := none, reschedule_period := none,
    reschedule_base := none, completed_at := none, created_at := ⟨⟨0, 1, 1⟩, 0⟩,
    updated_at := ⟨⟨0, 1, 1⟩, 0⟩, prohibited_months := [], constraints := [] }

/-- A placeholder handler result used as the default of `Option.getD`. -/
def dummyResult : UpdateResult := ⟨⟨[], 0⟩, dummyTask, none, []⟩

/-- The concrete handler result of re-completing `recompleteTask`. -/
def recompleteResult : UpdateResult :=
  (update_task recompleteStore 1 recompletePayload recompleteNow
    recompleteToday).getD dummyResult

/-- The follow-up task created by re-completing `recompleteTask`. -/
def recompleteCreated : StoredTask :=
  recompleteResult.created_task.getD dummyTask

lemma dateLt_trans {a b c : Date} (h1 : dateLt a b) (h2 : dateLt b c) :
    dateLt a c := by
  unfold dateLt at *
  omega

lemma nextDay_lt (d : Date) : dateLt d (nextDay d) := by
  unfold nextDay dateLt
  split
  · simp
  · split <;> simp <;> omega

lemma addDays_lt (d : Date) (n : Nat) (h : 1 ≤ n) : dateLt d (addDays d n) := by
  induction n with
  | zero => exact absurd h (by omega)
  | succ k ih =>
    rcases Nat.eq_zero_or_pos k with hk | hk
    · subst hk
      simpa [addDays] using nextDay_lt d
    · exact dateLt_trans (ih hk) (by simpa [addDays] using nextDay_lt (addDays d k))

lemma nextDay_month_range (d : Date) (h1 : 1 ≤ d.month) (h2 : d.month ≤ 12) :
    1 ≤ (nextDay d).month ∧ (nextDay d).month ≤ 12 := by
  unfold nextDay
  split
  · exact ⟨h1, h2⟩
  · split <;> simp <;> omega

lemma addDays_month_range (d : Date) (h1 : 1 ≤ d.month) (h2 : d.month ≤ 12)
    (n : Nat) : 1 ≤ (addDays d n).month ∧ (addDays d n).month ≤ 12 := by
  induction n with
  | zero => exact ⟨h1, h2⟩
  | succ k ih => simpa [addDays] using nextDay_month_range _ ih.1 ih.2

lemma monthsAdd_month_range (b : Date) (n : Nat) :
    1 ≤ (monthsAdd b n).month ∧ (monthsAdd b n).month ≤ 12 := by
  unfold monthsAdd
  refine ⟨by simp, by simp; omega⟩

lemma rawCandidate_month_range (b : Date) (p : Period)
    (h1 : 1 ≤ b.month) (h2 : b.month ≤ 12) :
    1 ≤ (rawCandidate b p).month ∧ (rawCandidate b p).month ≤ 12 := by
  unfold rawCandidate
  split
  · exact addDays_month_range b h1 h2 _
  · split
    · exact addDays_month_range b h1 h2 _
    · split
      · exact monthsAdd_month_range b _
      · exact ⟨h1, h2⟩

lemma monthAfter_range (m k : Nat) :
    1 ≤ monthAfter m k ∧ monthAfter m k ≤ 12 := by
  unfold monthAfter
  omega

lemma monthStep_eq (y m : Nat) (h1 : 1 ≤ m) (h2 : m ≤ 12) :
    monthStep y m = (y + m / 12, monthAfter m 1) := by
  unfold monthStep monthAfter
  split <;> simp [Prod.ext_iff] <;> omega

lemma monthAfter_succ (m k : Nat) (h1 : 1 ≤ m) (h2 : m ≤ 12) :
    monthAfter m (k + 1) = monthAfter (monthAfter m 1) k := by
  unfold monthAfter
  omega

lemma scanMonths_some_spec (p : List Nat) :
    ∀ fuel y m y2 m2, 1 ≤ m → m ≤ 12 →
    scanMonths p fuel y m = some (y2, m2) →
    ∃ k, 1 ≤ k ∧ k ≤ fuel ∧ m2 = monthAfter m k ∧ m2 ∉ p ∧
      y2 = y + (m - 1 + k) / 12 ∧
      (∀ j, 1 ≤ j → j < k → monthAfter m j ∈ p) := by
  intro fuel
  induction fuel with
  | zero =>
    intro y m y2 m2 _ _ h
    simp [scanMonths] at h
  | succ f ih =>
    intro y m y2 m2 h1 h2 h
    simp only [scanMonths, monthStep_eq y m h1 h2] at h
    have hr1 := (monthAfter_range m 1).1
    have hr2 := (monthAfter_range m 1).2
    have hme : monthAfter m 1 = m % 12 + 1 := by
      unfold monthAfter
      omega
    by_cases hm : monthAfter m 1 ∈ p
    · rw [if_pos hm] at h
      obtain ⟨k, hk1, hk2, hk3, hk4, hk5, hk6⟩ :=
        ih (y + m / 12) (monthAfter m 1) y2 m2 hr1 hr2 h
      refine ⟨k + 1, by omega, by omega, ?_, hk4, ?_, ?_⟩
      · rw [monthAfter_succ m k h1 h2]
        exact hk3
      · have : monthAfter m 1 - 1 + k = m % 12 + k := by omega
        rw [this] at hk5
        omega
      · intro j hj1 hj2
        rcases Nat.lt_or_ge 1 j with hj | hj
        · obtain ⟨j', rfl⟩ : ∃ j', j = j' + 1 := ⟨j - 1, by omega⟩
          rw [monthAfter_succ m j' h1 h2]
          exact hk6 j' (by omega) (by omega)
        · have : j = 1 := by omega
          subst this
          exact hm
    · rw [if_neg hm] at h
      have h' := Option.some.inj h
      have hy2 : y + m / 12 = y2 := congrArg Prod.fst h'
      have hm2 : monthAfter m 1 = m2 := congrArg Prod.snd h'
      refine ⟨1, le_refl 1, by omega, hm2.symm, hm2 ▸ hm, by omega, ?_⟩
      intro j hj1 hj2
      omega

lemma scanMonths_finds (p : List Nat) :
    ∀ fuel y m, 1 ≤ m → m ≤ 12 →
    (∃ k, 1 ≤ k ∧ k ≤ fuel ∧ monthAfter m k ∉ p) →
    ∃ r, scanMonths p fuel y m = some r := by
  intro fuel
  induction fuel with
  | zero =>
    intro y m _ _ hex
    obtain ⟨k, hk1, hk2, _⟩ := hex
    omega
  | succ f ih =>
    intro y m h1 h2 hex
    obtain ⟨k, hk1, hk2, hk3⟩ := hex
    simp only [scanMonths, monthStep_eq y m h1 h2]
    by_cases hm : monthAfter m 1 ∈ p
    · rw [if_pos hm]
      have hkne : k ≠ 1 := by
        intro hk
        subst hk
        exact hk3 hm
      obtain ⟨k', rfl⟩ : ∃ k', k = k' + 1 := ⟨k - 1, by omega⟩
      refine ih (y + m / 12) (monthAfter m 1) (monthAfter_range m 1).1
        (monthAfter_range m 1).2 ⟨k', by omega, by omega, ?_⟩
      rw [← monthAfter_succ m k' h1 h2]
      exact hk3
    · rw [if_neg hm]
      exact ⟨_, rfl⟩

lemma scanMonths_none_of_all (p : List Nat)
    (hall : ∀ mm, 1 ≤ mm → mm ≤ 12 → mm ∈ p) :
    ∀ fuel y m, 1 ≤ m → m ≤ 12 → scanMonths p fuel y m = none := by
  intro fuel
  induction fuel with
  | zero =>
    intro y m _ _
    rfl
  | succ f ih =>
    intro y m h1 h2
    simp only [scanMonths, monthStep_eq y m h1 h2]
    rw [if_pos (hall _ (monthAfter_range m 1).1 (monthAfter_range m 1).2)]
    exact ih _ _ (monthAfter_range m 1).1 (monthAfter_range m 1).2

lemma month_cover_aux : ∀ m < 12, ∀ a < 12, ∃ k < 12, (m + k + 1) % 12 = a := by
  decide

lemma month_cover (m a : Nat) (h1 : 1 ≤ m) (h2 : m ≤ 12)
    (h3 : 1 ≤ a) (h4 : a ≤ 12) :
    ∃ k, 1 ≤ k ∧ k ≤ 12 ∧ monthAfter m k = a := by
  obtain ⟨k, hk, he⟩ := month_cover_aux (m - 1) (by omega) (a - 1) (by omega)
  refine ⟨k + 1, by omega, by omega, ?_⟩
  unfold monthAfter
  omega

/-- Claim C4: for every base date and every day or week period with an empty
prohibited-month list, `_calculate_next_due_date` returns exactly the base
date plus `amount` days (unit `d`) or `amount * 7` days (unit `w`), with no
clamping or other adjustment. -/
theorem day_week_periods_exact_addition :
    (∀ (b : Date) (n : Nat),
      calculate_next_due_date b ⟨n, 'd'⟩ [] = addDays b n) ∧
    (∀ (b : Date) (n : Nat),
      calculate_next_due_date b ⟨n, 'w'⟩ [] = addDays b (7 * n)) := by
  constructor <;>
    intro b n <;>
    simp [calculate_next_due_date, rawCandidate]

/-- Claim C3: for every base date and month period with no prohibited-month
adjustment, the candidate is obtained by adding the amount to the month index
with year carry via integer division and clamping the day to the length of
the target month; in particular 2024-01-31 + 1m = 2024-02-29,
2025-01-31 + 1m = 2025-02-28 and 2024-11-15 + 2m = 2025-01-15. -/
theorem month_addition_carry_and_clamp :
    (∀ (b : Date) (n : Nat),
      calculate_next_due_date b ⟨n, 'm'⟩ [] =
        ⟨b.year + (b.month + n - 1) / 12,
         (b.month + n - 1) % 12 + 1,
         min b.day (daysInMonth (b.year + (b.month + n - 1) / 12)
           ((b.month + n - 1) % 12 + 1))⟩) ∧
    calculate_next_due_date ⟨2024, 1, 31⟩ ⟨1, 'm'⟩ [] = ⟨2024, 2, 29⟩ ∧
    calculate_next_due_date ⟨2025, 1, 31⟩ ⟨1, 'm'⟩ [] = ⟨2025, 2, 28⟩ ∧
    calculate_next_due_date ⟨2024, 11, 15⟩ ⟨2, 'm'⟩ [] = ⟨2025, 1, 15⟩ := by
  refine ⟨?_, by decide, by decide, by decide⟩
  intro b n
  simp [calculate_next_due_date, rawCandidate, monthsAdd]

/-- Claim C2: for every base date, period and prohibited-month list that
leaves at least one of the twelve months allowed, the month of the date
returned by `_calculate_next_due_date` is not prohibited. -/
theorem next_due_month_not_prohibited (b : Date) (p : Period)
    (prohibited : List Nat) (h1 : 1 ≤ b.month) (h2 : b.month ≤ 12)
    (h3 : ∃ a, 1 ≤ a ∧ a ≤ 12 ∧ a ∉ prohibited) :
    (calculate_next_due_date b p prohibited).month ∉ prohibited := by
  obtain ⟨a, ha1, ha2, ha3⟩ := h3
  have hcr := rawCandidate_month_range b p h1 h2
  unfold calculate_next_due_date
  by_cases hcond : prohibited ≠ [] ∧ (rawCandidate b p).month ∈ prohibited
  · rw [if_pos hcond]
    unfold find_first_non_prohibited_month
    rw [if_neg hcond.1, if_neg (not_not_intro hcond.2)]
    obtain ⟨k0, hk01, hk02, hk03⟩ :=
      month_cover (rawCandidate b p).month a hcr.1 hcr.2 ha1 ha2
    obtain ⟨⟨y2, m2⟩, hsc⟩ :=
      scanMonths_finds prohibited 12 (rawCandidate b p).year
        (rawCandidate b p).month hcr.1 hcr.2 ⟨k0, hk01, hk02, hk03 ▸ ha3⟩
    rw [hsc]
    obtain ⟨k, _, _, _, hm2, _, _⟩ :=
      scanMonths_some_spec prohibited 12 (rawCandidate b p).year
        (rawCandidate b p).month y2 m2 hcr.1 hcr.2 hsc
    simpa using hm2
  · rw [if_neg hcond]
    by_cases hp : prohibited = []
    · subst hp
      simp
    · intro hmem
      exact hcond ⟨hp, hmem⟩

/-- Witness for C2 at a concrete input: with base 2024-06-10, period `0d`
and prohibited months 6, 7, 8, the returned month is allowed. -/
theorem next_due_month_not_prohibited_witness :
    (calculate_next_due_date ⟨2024, 6, 10⟩ ⟨0, 'd'⟩ [6, 7, 8]).month
      ∉ [6, 7, 8] :=
  next_due_month_not_prohibited ⟨2024, 6, 10⟩ ⟨0, 'd'⟩ [6, 7, 8]
    (by decide) (by decide) ⟨9, by decide, by decide, by decide⟩

/-- Claim C6: if the prohibited-month list covers all twelve months, the
(total, hence terminating and error-free) `_calculate_next_due_date`
returns the raw unrolled candidate unchanged. -/
theorem all_months_prohibited_fallback (b : Date) (p : Period)
    (prohibited : List Nat) (h1 : 1 ≤ b.month) (h2 : b.month ≤ 12)
    (hall : ∀ m, 1 ≤ m → m ≤ 12 → m ∈ prohibited) :
    calculate_next_due_date b p prohibited = rawCandidate b p := by
  have hcr := rawCandidate_month_range b p h1 h2
  have hmem := hall _ hcr.1 hcr.2
  have hne : prohibited ≠ [] := List.ne_nil_of_mem hmem
  unfold calculate_next_due_date
  rw [if_pos ⟨hne, hmem⟩]
  unfold find_first_non_prohibited_month
  rw [if_neg hne, if_neg (not_not_intro hmem),
    scanMonths_none_of_all prohibited hall 12 _ _ hcr.1 hcr.2]

/-- Witness for C6 at a concrete input: with all twelve months prohibited,
2024-01-31 + 1m is returned as the unadjusted candidate 2024-02-29. -/
theorem all_months_prohibited_fallback_witness :
    calculate_next_due_date ⟨2024, 1, 31⟩ ⟨1, 'm'⟩
        [1, 2, 3, 4, 5, 6, 7, 8, 9, 10, 11, 12] =
      rawCandidate ⟨2024, 1, 31⟩ ⟨1, 'm'⟩ :=
  all_months_prohibited_fallback ⟨2024, 1, 31⟩ ⟨1, 'm'⟩ _
    (by decide) (by decide)
    (by
      intro m hm1 hm2
      simp only [List.mem_cons, List.not_mem_nil, or_false]
      omega)

/-- Claim C5: when the raw candidate's month is prohibited and not all
twelve months are prohibited, `_calculate_next_due_date` returns day 1 of
the first non-prohibited month reached by scanning forward month-by-month
from the candidate's month (wrapping December to January with a year
increment); e.g. candidate 2024-06-10 (period `0d`) with prohibited months
6, 7, 8 yields 2024-09-01. -/
theorem prohibited_rollforward_first_allowed_month (b : Date) (p : Period)
    (prohibited : List Nat) (h1 : 1 ≤ b.month) (h2 : b.month ≤ 12)
    (hm : (rawCandidate b p).month ∈ prohibited)
    (hex : ∃ a, 1 ≤ a ∧ a ≤ 12 ∧ a ∉ prohibited) :
    (∃ k, 1 ≤ k ∧ k ≤ 12 ∧
      monthAfter (rawCandidate b p).month k ∉ prohibited ∧
      (∀ j, 1 ≤ j → j < k →
        monthAfter (rawCandidate b p).month j ∈ prohibited) ∧
      calculate_next_due_date b p prohibited =
        ⟨(rawCandidate b p).year + ((rawCandidate b p).month - 1 + k) / 12,
         monthAfter (rawCandidate b p).month k, 1⟩) ∧
    calculate_next_due_date ⟨2024, 6, 10⟩ ⟨0, 'd'⟩ [6, 7, 8] = ⟨2024, 9, 1⟩ := by
  refine ⟨?_, by decide⟩
  obtain ⟨a, ha1, ha2, ha3⟩ := hex
  have hcr := rawCandidate_month_range b p h1 h2
  have hne : prohibited ≠ [] := List.ne_nil_of_mem hm
  unfold calculate_next_due_date
  rw [if_pos ⟨hne, hm⟩]
  unfold find_first_non_prohibited_month
  rw [if_neg hne, if_neg (not_not_intro hm)]
  obtain ⟨k0, hk01, hk02, hk03⟩ :=
    month_cover (rawCandidate b p).month a hcr.1 hcr.2 ha1 ha2
  obtain ⟨⟨y2, m2⟩, hsc⟩ :=
    scanMonths_finds prohibited 12 (rawCandidate b p).year
      (rawCandidate b p).month hcr.1 hcr.2 ⟨k0, hk01, hk02, hk03 ▸ ha3⟩
  rw [hsc]
  obtain ⟨k, hk1, hk2, hm2eq, hm2np, hy2eq, hmin⟩ :=
    scanMonths_some_spec prohibited 12 (rawCandidate b p).year
      (rawCandidate b p).month y2 m2 hcr.1 hcr.2 hsc
  exact ⟨k, hk1, hk2, hm2eq ▸ hm2np, hmin, by rw [← hm2eq, ← hy2eq]⟩

/-- Witness for C5 at a concrete input: base 2024-06-10, period `0d`,
prohibited months 6, 7, 8. -/
theorem prohibited_rollforward_first_allowed_month_witness :
    (∃ k, 1 ≤ k ∧ k ≤ 12 ∧
      monthAfter (rawCandidate ⟨2024, 6, 10⟩ ⟨0, 'd'⟩).month k ∉ [6, 7, 8] ∧
      (∀ j, 1 ≤ j → j < k →
        monthAfter (rawCandidate ⟨2024, 6, 10⟩ ⟨0, 'd'⟩).month j ∈ [6, 7, 8]) ∧
      calculate_next_due_date ⟨2024, 6, 10⟩ ⟨0, 'd'⟩ [6, 7, 8] =
        ⟨(rawCandidate ⟨2024, 6, 10⟩ ⟨0, 'd'⟩).year +
          ((rawCandidate ⟨2024, 6, 10⟩ ⟨0, 'd'⟩).month - 1 + k) / 12,
         monthAfter (rawCandidate ⟨2024, 6, 10⟩ ⟨0, 'd'⟩).month k, 1⟩) ∧
    calculate_next_due_date ⟨2024, 6, 10⟩ ⟨0, 'd'⟩ [6, 7, 8] = ⟨2024, 9, 1⟩ :=
  prohibited_rollforward_first_allowed_month ⟨2024, 6, 10⟩ ⟨0, 'd'⟩ [6, 7, 8]
    (by decide) (by decide) (by decide)
    ⟨9, by decide, by decide, by decide⟩

lemma monthsAdd_lt (b : Date) (n : Nat) (hn : 1 ≤ n) (h1 : 1 ≤ b.month) :
    dateLt b (monthsAdd b n) := by
  unfold monthsAdd dateLt
  simp only
  omega

/-- Claim C10: for every base date, valid period with amount at least 1 and
every prohibited-month list, the computed next due date is strictly after
the base date; moreover the prohibited-month roll-forward either leaves the
raw candidate unchanged or moves strictly past it. -/
theorem next_due_strictly_after_base (b : Date) (p : Period)
    (prohibited : List Nat) (h1 : 1 ≤ b.month) (h2 : b.month ≤ 12)
    (hn : 1 ≤ p.amount) (hu : p.unit = 'd' ∨ p.unit = 'w' ∨ p.unit = 'm') :
    dateLt b (calculate_next_due_date b p prohibited) ∧
    (calculate_next_due_date b p prohibited = rawCandidate b p ∨
      dateLt (rawCandidate b p) (calculate_next_due_date b p prohibited)) := by
  have hcr := rawCandidate_month_range b p h1 h2
  have hcand : dateLt b (rawCandidate b p) := by
    unfold rawCandidate
    rcases hu with hu | hu | hu
    · simp only [hu, if_pos]
      exact addDays_lt b p.amount hn
    · simp only [hu]
      norm_num
      exact addDays_lt b (7 * p.amount) (by omega)
    · simp only [hu]
      norm_num
      exact monthsAdd_lt b p.amount hn h1
  unfold calculate_next_due_date
  by_cases hcond : prohibited ≠ [] ∧ (rawCandidate b p).month ∈ prohibited
  · rw [if_pos hcond]
    unfold find_first_non_prohibited_month
    rw [if_neg hcond.1, if_neg (not_not_intro hcond.2)]
    cases hsc : scanMonths prohibited 12 (rawCandidate b p).year
        (rawCandidate b p).month with
    | none => exact ⟨hcand, Or.inl rfl⟩
    | some r =>
      obtain ⟨y2, m2⟩ := r
      obtain ⟨k, hk1, hk2, hm2eq, _, hy2eq, _⟩ :=
        scanMonths_some_spec prohibited 12 (rawCandidate b p).year
          (rawCandidate b p).month y2 m2 hcr.1 hcr.2 hsc
      unfold monthAfter at hm2eq
      constructor
      · unfold dateLt at hcand ⊢
        show b.year < y2 ∨
          (b.year = y2 ∧ (b.month < m2 ∨ (b.month = m2 ∧ b.day < 1)))
        omega
      · refine Or.inr ?_
        unfold dateLt
        show (rawCandidate b p).year < y2 ∨
          ((rawCandidate b p).year = y2 ∧
            ((rawCandidate b p).month < m2 ∨
              ((rawCandidate b p).month = m2 ∧ (rawCandidate b p).day < 1)))
        omega
  · rw [if_neg hcond]
    exact ⟨hcand, Or.inl rfl⟩

/-- Witness for C10 at a concrete input: base 2024-06-10, period `1d`,
prohibited months 6, 7, 8. -/
theorem next_due_strictly_after_base_witness :
    dateLt ⟨2024, 6, 10⟩
      (calculate_next_due_date ⟨2024, 6, 10⟩ ⟨1, 'd'⟩ [6, 7, 8]) ∧
    (calculate_next_due_date ⟨2024, 6, 10⟩ ⟨1, 'd'⟩ [6, 7, 8] =
        rawCandidate ⟨2024, 6, 10⟩ ⟨1, 'd'⟩ ∨
      dateLt (rawCandidate ⟨2024, 6, 10⟩ ⟨1, 'd'⟩)
        (calculate_next_due_date ⟨2024, 6, 10⟩ ⟨1, 'd'⟩ [6, 7, 8])) :=
  next_due_strictly_after_base ⟨2024, 6, 10⟩ ⟨1, 'd'⟩ [6, 7, 8]
    (by decide) (by decide) (by decide) (Or.inl rfl)

lemma applyTaskUpdate_id (t : StoredTask) (u : TaskUpdate) (now : DateTime) :
    (applyTaskUpdate t u now).id = t.id := by
  obtain ⟨ul, ut, ud, uc, udd, urp, urb, uca, uua, upm, ucs⟩ := u
  unfold applyTaskUpdate
  cases ul <;> cases ut <;> cases ud <;> cases uc <;> cases udd <;>
    cases urp <;> cases urb <;> cases uca <;> cases upm <;> cases ucs <;> rfl

lemma update_task_followup_spec (s : Store) (task_id : Nat)
    (payload : TaskUpdate) (now : DateTime) (localToday : Date)
    (r : UpdateResult) (c : StoredTask)
    (hr : update_task s task_id payload now localToday = some r)
    (hc : r.created_task = some c) :
    ∃ t period, s.tasks.find? (fun x => x.id == task_id) = some t ∧
      r.task = applyTaskUpdate t payload now ∧
      r.task.completed = true ∧
      r.task.reschedule_period = some period ∧
      c.id = s.next_task_id ∧
      c.list_id = r.task.list_id ∧
      c.title = r.task.title ∧
      c.description = r.task.description ∧
      c.completed = false ∧
      c.due_date = some (calculate_next_due_date
        (anchor_base_date r.task payload localToday) period
        r.task.prohibited_months) ∧
      c.reschedule_period = some period ∧
      c.reschedule_base = r.task.reschedule_base ∧
      c.completed_at = none ∧
      c.prohibited_months = r.task.prohibited_months ∧
      c.constraints = r.task.constraints ∧
      r.store.tasks =
        s.tasks.map (fun x => if x.id == task_id then r.task else x) ++ [c] ∧
      r.store.next_task_id = s.next_task_id + 1 ∧
      r.events = [Event.task_created r.task.list_id c,
        Event.task_updated r.task.list_id r.task (some c)] := by
  unfold update_task store_update_task at hr
  cases hfind : s.tasks.find? (fun x => x.id == task_id) with
  | none =>
    rw [hfind] at hr
    simp at hr
  | some t =>
    rw [hfind] at hr
    simp only at hr
    cases hcc : (applyTaskUpdate t payload now).completed with
    | false =>
      rw [hcc] at hr
      simp only at hr
      obtain rfl := Option.some.inj hr
      simp at hc
    | true =>
      rw [hcc] at hr
      cases hpp : (applyTaskUpdate t payload now).reschedule_period with
      | none =>
        rw [hpp] at hr
        simp only at hr
        obtain rfl := Option.some.inj hr
        simp at hc
      | some period =>
        rw [hpp] at hr
        simp only at hr
        obtain rfl := Option.some.inj hr
        obtain rfl := Option.some.inj hc
        exact ⟨t, period, rfl, rfl, hcc, hpp, rfl, rfl, rfl, rfl, rfl,
          rfl, rfl, rfl, rfl, rfl, rfl, rfl, rfl, rfl⟩

/-- Claim C1 (code bug): a PATCH that sets `completed = true` on a recurring
task that is ALREADY completed still spawns a new follow-up task, because
`update_task` tests the post-update level `task.completed and
task.reschedule_period` rather than the false-to-true transition. The first
conjunct records that the stored task was already completed and recurring
before the request; the second that the handler nevertheless produced a
follow-up. -/
theorem recompletion_spawns_duplicate_followup :
    (recompleteStore.tasks.map fun t => (t.completed, t.reschedule_period.isSome))
        = [(true, true)] ∧
    ((update_task recompleteStore 1 recompletePayload recompleteNow
        recompleteToday).map fun r => r.created_task.isSome) = some true := by
  decide

/-- Claim C9 (code bug): on a genuine first-time completion that spawns a
follow-up, the handler emits the `task_created` broadcast for the follow-up
FIRST (inside the nested `create_task` call) and the `task_updated`
broadcast for the completion second, so the follow-up is observable before
its triggering completion. The first conjunct records that the stored task
was not yet completed; the second gives the emitted event kinds in order
(`true` = `task_created`, `false` = `task_updated`). -/
theorem followup_created_broadcast_precedes_update_broadcast :
    (freshCompleteStore.tasks.map fun t => t.completed) = [false] ∧
    ((update_task freshCompleteStore 1 recompletePayload recompleteNow
        recompleteToday).map
      fun r => (r.events.map isCreatedEvent, r.created_task.isSome))
      = some ([true, false], true) := by
  decide

/-- Claim C7: the anchor date of a follow-up computation is selected by
priority: with `reschedule_base = "due"` the task's due date is used even
when a client timestamp is supplied; otherwise the client-supplied
`updated_at` date is used if present, else the task's stored `completed_at`
date, else the current server-local date; and the follow-up's due date is
computed from exactly this anchor. -/
theorem anchor_date_priority (s : Store) (task_id : Nat) (payload : TaskUpdate)
    (now : DateTime) (localToday : Date) (task : StoredTask) :
    ((task.reschedule_base = some "due" → ∀ d, task.due_date = some d →
        anchor_base_date task payload localToday = d) ∧
     (task.reschedule_base ≠ some "due" → ∀ t, payload.updated_at = some t →
        anchor_base_date task payload localToday = t.date) ∧
     (task.reschedule_base ≠ some "due" → payload.updated_at = none →
        ∀ c, task.completed_at = some c →
        anchor_base_date task payload localToday = c.date) ∧
     (task.reschedule_base ≠ some "due" → payload.updated_at = none →
        task.completed_at = none →
        anchor_base_date task payload localToday = localToday)) ∧
    (∀ r c period, update_task s task_id payload now localToday = some r →
      r.created_task = some c → r.task.reschedule_period = some period →
      c.due_date = some (calculate_next_due_date
        (anchor_base_date r.task payload localToday) period
        r.task.prohibited_months)) := by
  refine ⟨⟨?_, ?_, ?_, ?_⟩, ?_⟩
  · intro hb d hd
    simp [anchor_base_date, hb, hd]
  · intro hb t ht
    simp [anchor_base_date, hb, ht]
  · intro hb hu c0 hc0
    simp [anchor_base_date, hb, hu, hc0]
  · intro hb hu hca
    simp [anchor_base_date, hb, hu, hca]
  · intro r c period hr hc hp
    obtain ⟨t, period0, -, -, -, hper0, -, -, -, -, -, hdue, -, -, -, -, -,
      -, -, -⟩ :=
      update_task_followup_spec s task_id payload now localToday r c hr hc
    obtain rfl : period0 = period := Option.some.inj (hper0 ▸ hp)
    exact hdue

/-- Witness for C7 at a concrete input: a task with `reschedule_base =
"due"` and due date 2024-04-01, patched with a client `updated_at` of
2024-03-05, anchors at the due date. -/
theorem anchor_date_priority_witness :
    anchor_base_date dueBaseTask clientStampPayload ⟨2024, 5, 5⟩ =
      ⟨2024, 4, 1⟩ :=
  (anchor_date_priority recompleteStore 1 clientStampPayload recompleteNow
    ⟨2024, 5, 5⟩ dueBaseTask).1.1 rfl ⟨2024, 4, 1⟩ rfl

/-- Claim C8: every follow-up produced on completion of a recurring task is
a fresh task entity: it carries the same `list_id`, `title`, `description`,
`reschedule_period`, `reschedule_base`, `prohibited_months` and
`constraints` as the completed task, is not completed, has the freshly
computed next due date, bears a new id distinct from the completed task's,
and both tasks are present in the resulting store (the completed task is
not mutated into the follow-up). -/
theorem followup_is_new_task_with_inherited_config (s : Store)
    (task_id : Nat) (payload : TaskUpdate) (now : DateTime)
    (localToday : Date) (r : UpdateResult) (c : StoredTask)
    (hids : ∀ t ∈ s.tasks, t.id < s.next_task_id)
    (hr : update_task s task_id payload now localToday = some r)
    (hc : r.created_task = some c) :
    c.list_id = r.task.list_id ∧ c.title = r.task.title ∧
    c.description = r.task.description ∧
    c.reschedule_period = r.task.reschedule_period ∧
    c.reschedule_base = r.task.reschedule_base ∧
    c.prohibited_months = r.task.prohibited_months ∧
    c.constraints = r.task.constraints ∧
    c.completed = false ∧
    (∀ period, r.task.reschedule_period = some period →
      c.due_date = some (calculate_next_due_date
        (anchor_base_date r.task payload localToday) period
        r.task.prohibited_months)) ∧
    c.id ≠ r.task.id ∧ r.task.completed = true ∧
    r.task ∈ r.store.tasks ∧ c ∈ r.store.tasks := by
  obtain ⟨t, period0, hfind, htask, hcomp, hper0, hid, hlist, htitle, hdesc,
    hcf, hdue, hcper, hcbase, -, hcpro, hccon, hstore, -, -⟩ :=
    update_task_followup_spec s task_id payload now localToday r c hr hc
  have htmem : t ∈ s.tasks := List.mem_of_find?_eq_some hfind
  have htid := List.find?_some hfind
  have hrid : r.task.id = t.id := by
    rw [htask]
    exact applyTaskUpdate_id t payload now
  refine ⟨hlist, htitle, hdesc, ?_, hcbase, hcpro, hccon, hcf, ?_, ?_,
    hcomp, ?_, ?_⟩
  · rw [hcper, hper0]
  · intro period hp
    obtain rfl : period0 = period := Option.some.inj (hper0 ▸ hp)
    exact hdue
  · have := hids t htmem
    omega
  · rw [hstore]
    refine List.mem_append_left _ ?_
    have h2 := List.mem_map_of_mem
      (fun x => if x.id == task_id then r.task else x) htmem
    simp only [htid, if_true] at h2
    exact h2
  · rw [hstore]
    exact List.mem_append_right _ (List.mem_singleton_self c)

/-- Witness for C8 at a concrete input: the follow-up produced by the
repeated-completion scenario inherits the configuration of the stored task,
is uncompleted, has a fresh id, and coexists with the updated original. -/
theorem followup_is_new_task_with_inherited_config_witness :
    recompleteCreated.list_id = recompleteResult.task.list_id ∧
    recompleteCreated.title = recompleteResult.task.title ∧
    recompleteCreated.description = recompleteResult.task.description ∧
    recompleteCreated.reschedule_period =
      recompleteResult.task.reschedule_period ∧
    recompleteCreated.reschedule_base =
      recompleteResult.task.reschedule_base ∧
    recompleteCreated.prohibited_months =
      recompleteResult.task.prohibited_months ∧
    recompleteCreated.constraints = recompleteResult.task.constraints ∧
    recompleteCreated.completed = false ∧
    (∀ period, recompleteResult.task.reschedule_period = some period →
      recompleteCreated.due_date = some (calculate_next_due_date
        (anchor_base_date recompleteResult.task recompletePayload
          recompleteToday) period
        recompleteResult.task.prohibited_months)) ∧
    recompleteCreated.id ≠ recompleteResult.task.id ∧
    recompleteResult.task.completed = true ∧
    recompleteResult.task ∈ recompleteResult.store.tasks ∧
    recompleteCreated ∈ recompleteResult.store.tasks :=
  followup_is_new_task_with_inherited_config recompleteStore 1
    recompletePayload recompleteNow recompleteToday recompleteResult
    recompleteCreated (by decide) rfl rfl

end Upkeep
